import Mathlib

/-!
Shallow embedding of the physical-page allocator and copy-on-write (COW)
resolver in `kernel/kalloc.c` (functions `kfree`, `kalloc`, `incr_ref`,
`iscow`, `cowcopy`), together with theorems settling the specification
claims about it.

Modelling conventions:
* Physical addresses and virtual addresses are `Nat`; reference counters
  are `Int` (the C `int` counter is decremented below zero in places, and
  no overflow is reachable in the scenarios considered).
* The kernel constants `end` and `PHYSTOP` (link-time / memlayout.h) and
  `MAXVA` (riscv.h) are carried in a `Config` record.
* Frame content is modelled at byte granularity per frame:
  `content : Nat → Nat → Nat` maps a frame index (`pa / PGSIZE`) and a byte
  offset to a byte value.  Every content operation in the C code
  (`memset`, `memmove`) acts on a whole frame, so this is faithful.  The
  intrusive free list (`struct run` overlaid on free frames) is abstracted
  into an explicit `List Nat` of page addresses, head = most recently
  freed; the `r->next` pointer bytes are part of that abstraction.
* A fatal outcome (`panic`, or a wild dereference that cannot return) is
  `none` in an `Option` result.
-/

/-- Page size in bytes (`PGSIZE`, riscv.h; the value 4096 is stated in the
source's own comments). -/
def PGSIZE : Nat := 4096

/-- `PGROUNDDOWN(a)` rounds an address down to its page boundary. -/
def PGROUNDDOWN (a : Nat) : Nat := a / PGSIZE * PGSIZE

/-- Kernel memory-layout constants consumed by kalloc.c: `end` (first
address after the kernel image), `PHYSTOP` (top of managed physical
memory) and `MAXVA` (maximum virtual address). -/
structure Config where
  endAddr : Nat
  PHYSTOP : Nat
  MAXVA : Nat
deriving DecidableEq, Repr

/-- Modelled from the spec: the page-table entry type (`pte_t`, riscv.h)
is not under src/.  Spec §3: an entry "carries Valid, Writable, and COW
flag bits plus a physical frame reference"; further flag bits (read,
execute, user, ...) are opaque here in `other`.  `PTE2PA` is the `pa`
field, `PTE_FLAGS` is everything but `pa`. -/
structure PTE where
  valid : Bool
  writable : Bool
  cow : Bool
  other : Nat
  pa : Nat
deriving DecidableEq, Repr

/-- A page table, observed through the translation lookup: a partial map
from page-aligned virtual addresses to entries. -/
def Pagetable : Type := Nat → Option PTE

/-- Modelled from the spec: `walk` (vm.c) is not under src/.  Spec §6
describes it as the "address-translation lookup (`vaddr → entry`)"; the
entry for an address is determined by its page number, so the lookup is by
the page-rounded address. -/
def walk (pt : Pagetable) (va : Nat) : Option PTE := pt (PGROUNDDOWN va)

/-- Modelled from the spec: `mappages` (vm.c) is not under src/.  Spec §6
describes it as "mapping installation (replace/create an entry with new
frame, size, and flags, failable)"; installation makes the entry live
(Valid).  The Boolean `ok` stands for whether the external installation
succeeds; on failure the table is unchanged. -/
def mappages (ok : Bool) (pt : Pagetable) (va : Nat) (pa : Nat) (flag : PTE) :
    Option Pagetable :=
  if ok then
    some (fun a => if a = va then some { flag with pa := pa, valid := true } else pt a)
  else
    none

/-- The allocator state: the reference-count vector `memrefs` (indexed by
frame index `pa / PGSIZE`), the free list `kmem.freelist`, and the byte
content of every frame. -/
structure KState where
  memrefs : Nat → Int
  freelist : List Nat
  content : Nat → Nat → Nat

/-- `kfree(pa)` from kalloc.c: fatal (`panic("kfree")`, here `none`) if
`pa` is misaligned, below `end` or at/above `PHYSTOP`; otherwise decrement
the frame's counter; if the result is still positive return, else fill the
frame with the junk byte 1 and push it onto the free list. -/
def kfree (cfg : Config) (pa : Nat) (s : KState) : Option KState :=
  if pa % PGSIZE ≠ 0 ∨ pa < cfg.endAddr ∨ cfg.PHYSTOP ≤ pa then
    none
  else
    let i := pa / PGSIZE
    let c := s.memrefs i - 1
    let s1 : KState := { s with memrefs := fun j => if j = i then c else s.memrefs j }
    if 0 < c then
      some s1
    else
      some { s1 with
        content := fun j => if j = i then fun _ => 1 else s1.content j,
        freelist := pa :: s1.freelist }

/-- `kalloc()` from kalloc.c: pop the head of the free list (`0`/`none` if
empty), set the popped frame's counter to exactly 1, fill it with the junk
byte 5, and return its address. -/
def kalloc (s : KState) : Option Nat × KState :=
  match s.freelist with
  | [] => (none, s)
  | r :: rest =>
    let i := r / PGSIZE
    (some r,
      { memrefs := fun j => if j = i then 1 else s.memrefs j,
        freelist := rest,
        content := fun j => if j = i then fun _ => 5 else s.content j })

/-- `incr_ref(pa)` from kalloc.c: returns -1 (leaving the state untouched)
if `pa` is misaligned, below `end` or at/above `PHYSTOP`; otherwise
increments the frame's counter and returns 1. -/
def incr_ref (cfg : Config) (pa : Nat) (s : KState) : Int × KState :=
  if pa % PGSIZE ≠ 0 ∨ pa < cfg.endAddr ∨ cfg.PHYSTOP ≤ pa then
    (-1, s)
  else
    let i := pa / PGSIZE
    (1, { s with memrefs := fun j => if j = i then s.memrefs j + 1 else s.memrefs j })

/-- `iscow(pagetable, va)` from kalloc.c: 0 (false) if `va > MAXVA`, if
`walk` finds no entry, or if the entry is not Valid; otherwise the entry's
COW bit (the C `int` result is used as a truth value). -/
def iscow (cfg : Config) (pt : Pagetable) (va : Nat) : Bool :=
  if cfg.MAXVA < va then false
  else
    match walk pt va with
    | none => false
    | some pte => if pte.valid = false then false else pte.cow

/-- `cowcopy(pagetable, va)` from kalloc.c.  Rounds `va` down; looks up
the entry with no null or validity check (`*pte` on a null `walk` result
is a wild dereference, modelled `none`).  If the frame's count is 1,
grants Writable, clears COW in place and returns the frame address.
Otherwise calls `kalloc` (returning 0 on exhaustion), copies the frame,
clears Valid on the old entry, installs the new frame with Writable set
and COW cleared via `mappages` (`mapOk` is the external success of that
call); on installation failure frees the new frame and returns 0 with the
old entry left as is; on success frees one reference on the original frame
and returns the new frame's address. -/
def cowcopy (cfg : Config) (mapOk : Bool) (pt : Pagetable) (va0 : Nat)
    (s : KState) : Option (Nat × Pagetable × KState) :=
  let va := PGROUNDDOWN va0
  match walk pt va with
  | none => none
  | some pte =>
    let pa := pte.pa
    let i := pa / PGSIZE
    if s.memrefs i = 1 then
      let pte1 := { pte with writable := true, cow := false }
      some (pa, fun a => if a = va then some pte1 else pt a, s)
    else
      match kalloc s with
      | (none, s1) => some (0, pt, s1)
      | (some mem, s1) =>
        let s2 : KState := { s1 with
          content := fun j =>
            if j = mem / PGSIZE then s1.content (pa / PGSIZE) else s1.content j }
        let pte2 := { pte with valid := false }
        let pt1 : Pagetable := fun a => if a = va then some pte2 else pt a
        let flag := { pte2 with writable := true, cow := false }
        match mappages mapOk pt1 va mem flag with
        | none =>
          match kfree cfg mem s2 with
          | none => none
          | some s3 => some (0, pt1, s3)
        | some pt2 =>
          match kfree cfg (PGROUNDDOWN pa) s2 with
          | none => none
          | some s3 => some (mem, pt2, s3)

/-! Concrete instances used by the closed (witness / counterexample /
failing-input) theorems.  The kernel image ends at 4096 and managed
memory tops out at 40960, so the managed frames have indices 1..9. -/

/-- A concrete memory layout: `end` = 4096, `PHYSTOP` = 40960,
`MAXVA` = 2^38 (the Sv39 half-range used by xv6). -/
def cfgA : Config := { endAddr := 4096, PHYSTOP := 40960, MAXVA := 274877906944 }

/-- A valid, read-only, COW entry for frame 8192 with an extra opaque flag. -/
def pteA : PTE := { valid := true, writable := false, cow := true, other := 2, pa := 8192 }

/-- A table mapping virtual page 4096 through `pteA`. -/
def ptA : Pagetable := fun a => if a = 4096 then some pteA else none

/-- Frame 8192 shared by two mappings; frame 12288 free. -/
def sA : KState :=
  { memrefs := fun j => if j = 2 then 2 else 0,
    freelist := [12288],
    content := fun _ _ => 7 }

/-- Frame 8192 with a sole owner; empty free list. -/
def sB : KState :=
  { memrefs := fun j => if j = 2 then 1 else 0,
    freelist := [],
    content := fun _ _ => 7 }

/-- An entry for frame 8192 that is NOT valid (Valid clear, COW set). -/
def pteX : PTE := { valid := false, writable := false, cow := true, other := 0, pa := 8192 }

/-- A table whose entry for virtual page 0 is present but invalid. -/
def ptX : Pagetable := fun a => if a = 0 then some pteX else none

/-- Two frames on the free list, frame 8192 holding a stale counter 5. -/
def sW6 : KState :=
  { memrefs := fun j => if j = 2 then 5 else 0,
    freelist := [8192, 12288],
    content := fun _ _ => 7 }

/-- Frame 8192 already at counter 0 and already on the free list. -/
def sW10 : KState :=
  { memrefs := fun _ => 0,
    freelist := [8192],
    content := fun _ _ => 7 }

/-- Frame 8192 shared by two mappings while the free list is empty. -/
def sC : KState :=
  { memrefs := fun j => if j = 2 then 2 else 0,
    freelist := [],
    content := fun _ _ => 7 }

/-- C6: a successful `kalloc` on a non-empty free list pops the head of
the list (the most recently freed frame, since `kfree` pushes at the
head), sets that frame's counter to exactly 1 whatever its prior value,
overwrites the whole frame with the allocation junk byte 5, and leaves
every other frame's counter and content unchanged. -/
theorem kalloc_success (s : KState) (r : Nat) (rest : List Nat)
    (h : s.freelist = r :: rest) :
    ∃ s', kalloc s = (some r, s')
      ∧ s'.memrefs (r / PGSIZE) = 1
      ∧ (∀ off, s'.content (r / PGSIZE) off = 5)
      ∧ s'.freelist = rest
      ∧ (∀ j, j ≠ r / PGSIZE → s'.memrefs j = s.memrefs j ∧ s'.content j = s.content j) := by
  refine ⟨{ memrefs := fun j => if j = r / PGSIZE then 1 else s.memrefs j,
            freelist := rest,
            content := fun j => if j = r / PGSIZE then (fun _ => 5) else s.content j },
          ?_, by simp, fun off => by simp, rfl, fun j hj => by simp [hj]⟩
  simp [kalloc, h]

/-- C6 witness at a concrete state: the stale counter 5 on frame 8192 is
reset to exactly 1 and the content to the junk byte 5. -/
theorem kalloc_success_w :
    sW6.freelist = 8192 :: [12288]
    ∧ (kalloc sW6).1 = some 8192
    ∧ (kalloc sW6).2.memrefs 2 = 1
    ∧ (kalloc sW6).2.content 2 0 = 5
    ∧ (kalloc sW6).2.freelist = [12288]
    ∧ (kalloc sW6).2.memrefs 3 = sW6.memrefs 3 := by
  obtain ⟨s', he, h1, h2, h3, h4⟩ := kalloc_success sW6 8192 [12288] rfl
  refine ⟨rfl, ?_, ?_, ?_, ?_, ?_⟩ <;> rw [he]
  · exact h1
  · exact h2 0
  · exact h3
  · exact (h4 3 (by decide)).1

/-- C7: `kfree` is fatal exactly when the address is misaligned or outside
the managed, non-reserved range [end, PHYSTOP).  Otherwise it decrements
the frame's counter by one and then either (result still above the free
sentinel 0) returns with the free list and all frame content unchanged, or
(result at or below 0) overwrites the frame with the free junk byte 1 and
pushes the frame onto the head of the free list. -/
theorem kfree_spec (cfg : Config) (pa : Nat) (s : KState) :
    (kfree cfg pa s = none ↔ (pa % PGSIZE ≠ 0 ∨ pa < cfg.endAddr ∨ cfg.PHYSTOP ≤ pa))
    ∧ (pa % PGSIZE = 0 → cfg.endAddr ≤ pa → pa < cfg.PHYSTOP →
        ∃ s', kfree cfg pa s = some s'
          ∧ s'.memrefs (pa / PGSIZE) = s.memrefs (pa / PGSIZE) - 1
          ∧ (∀ j, j ≠ pa / PGSIZE → s'.memrefs j = s.memrefs j)
          ∧ (0 < s.memrefs (pa / PGSIZE) - 1 →
              s'.freelist = s.freelist ∧ s'.content = s.content)
          ∧ (s.memrefs (pa / PGSIZE) - 1 ≤ 0 →
              s'.freelist = pa :: s.freelist
              ∧ (∀ off, s'.content (pa / PGSIZE) off = 1)
              ∧ (∀ j, j ≠ pa / PGSIZE → s'.content j = s.content j))) := by
  constructor
  · by_cases hbad : pa % PGSIZE ≠ 0 ∨ pa < cfg.endAddr ∨ cfg.PHYSTOP ≤ pa
    · simp [kfree, hbad]
    · by_cases hc : 0 < s.memrefs (pa / PGSIZE) - 1 <;> simp [kfree, hbad, hc]
  · intro h1 h2 h3
    have hbad : ¬(pa % PGSIZE ≠ 0 ∨ pa < cfg.endAddr ∨ cfg.PHYSTOP ≤ pa) := by
      push_neg
      exact ⟨h1, le_of_not_lt (by omega), by omega⟩
    by_cases hc : 0 < s.memrefs (pa / PGSIZE) - 1
    · refine ⟨{ s with
                memrefs := fun j =>
                  if j = pa / PGSIZE then s.memrefs (pa / PGSIZE) - 1 else s.memrefs j },
        by simp [kfree, hbad, hc], by simp, fun j hj => by simp [hj],
        fun _ => ⟨rfl, rfl⟩, fun h => absurd h (by omega)⟩
    · refine ⟨{ memrefs := fun j =>
                  if j = pa / PGSIZE then s.memrefs (pa / PGSIZE) - 1 else s.memrefs j,
                freelist := pa :: s.freelist,
                content := fun j =>
                  if j = pa / PGSIZE then (fun _ => 1) else s.content j },
        by simp [kfree, hbad, hc], by simp, fun j hj => by simp [hj],
        fun h => absurd h hc,
        fun _ => ⟨rfl, fun off => by simp, fun j hj => by simp [hj]⟩⟩

/-- C7 witness at a concrete state: freeing frame 8192 (aligned, in
range, sole owner) pushes it onto the free list with its counter at 0 and
its content filled with the junk byte 1. -/
theorem kfree_spec_w :
    8192 % PGSIZE = 0 ∧ cfgA.endAddr ≤ 8192 ∧ 8192 < cfgA.PHYSTOP
    ∧ (kfree cfgA 8192 sB).map KState.freelist = some [8192]
    ∧ (kfree cfgA 8192 sB).map (fun t => t.memrefs 2) = some 0
    ∧ (kfree cfgA 8192 sB).map (fun t => t.content 2 0) = some 1 := by
  obtain ⟨s', he, hm, _, _, hpush⟩ :=
    (kfree_spec cfgA 8192 sB).2 (by decide) (by decide) (by decide)
  obtain ⟨hfl, hcontent, -⟩ := hpush (by decide)
  refine ⟨by decide, by decide, by decide, ?_, ?_, ?_⟩ <;> rw [he] <;> simp
  · rw [hfl]; rfl
  · rw [show (8192 : Nat) / PGSIZE = 2 from rfl] at hm
    rw [hm]; rfl
  · exact hcontent 0

/-- C8: `incr_ref` returns -1 (`InvalidFrame`) exactly when the address is
misaligned or outside [end, PHYSTOP), leaving the state untouched; on a
valid address it returns 1, increases exactly that frame's counter by one,
and leaves every other counter, the free list and all content unchanged. -/
theorem incr_ref_spec (cfg : Config) (pa : Nat) (s : KState) :
    ((incr_ref cfg pa s).1 = -1 ↔ (pa % PGSIZE ≠ 0 ∨ pa < cfg.endAddr ∨ cfg.PHYSTOP ≤ pa))
    ∧ ((incr_ref cfg pa s).1 = -1 → (incr_ref cfg pa s).2 = s)
    ∧ (pa % PGSIZE = 0 → cfg.endAddr ≤ pa → pa < cfg.PHYSTOP →
        (incr_ref cfg pa s).1 = 1
        ∧ (incr_ref cfg pa s).2.memrefs (pa / PGSIZE) = s.memrefs (pa / PGSIZE) + 1
        ∧ (∀ j, j ≠ pa / PGSIZE → (incr_ref cfg pa s).2.memrefs j = s.memrefs j)
        ∧ (incr_ref cfg pa s).2.freelist = s.freelist
        ∧ (incr_ref cfg pa s).2.content = s.content) := by
  by_cases hbad : pa % PGSIZE ≠ 0 ∨ pa < cfg.endAddr ∨ cfg.PHYSTOP ≤ pa
  · refine ⟨by simp [incr_ref, hbad], fun _ => by simp [incr_ref, hbad], ?_⟩
    intro h1 h2 h3
    exact absurd hbad (by push_neg; exact ⟨h1, le_of_not_lt (by omega), by omega⟩)
  · refine ⟨by simp [incr_ref, hbad], fun hco => ?_, ?_⟩
    · exact absurd hco (by simp [incr_ref, hbad])
    · intro h1 h2 h3
      refine ⟨by simp [incr_ref, hbad], by simp [incr_ref, hbad],
        fun j hj => by simp [incr_ref, hbad, hj], by simp [incr_ref, hbad],
        by simp [incr_ref, hbad]⟩

/-- C8 witness at a concrete state: incrementing frame 8192's counter
takes it from 1 to 2, and an unaligned address is rejected with -1. -/
theorem incr_ref_spec_w :
    8192 % PGSIZE = 0 ∧ cfgA.endAddr ≤ 8192 ∧ 8192 < cfgA.PHYSTOP
    ∧ (incr_ref cfgA 8192 sB).1 = 1
    ∧ (incr_ref cfgA 8192 sB).2.memrefs 2 = sB.memrefs 2 + 1
    ∧ (incr_ref cfgA 8192 sB).2.memrefs 3 = sB.memrefs 3
    ∧ (incr_ref cfgA 8192 sB).2.freelist = sB.freelist := by
  obtain ⟨hr, hm, ho, hf, -⟩ :=
    (incr_ref_spec cfgA 8192 sB).2.2 (by decide) (by decide) (by decide)
  refine ⟨by decide, by decide, by decide, hr, ?_, ?_, hf⟩
  · rw [show (8192 : Nat) / PGSIZE = 2 from rfl] at hm
    exact hm
  · exact ho 3 (by decide)

/-- C10: for an aligned, in-range frame whose counter is already at or
below the free sentinel 0 (so the frame is already on the free list), a
further `kfree` does not abort: the counter is decremented to a negative
value, the junk byte 1 is written again, and the same frame is pushed onto
the free list a second time, after which two consecutive `kalloc` calls
both return that same frame. -/
theorem kfree_below_sentinel_double (cfg : Config) (pa : Nat) (s : KState)
    (rest : List Nat)
    (ha : pa % PGSIZE = 0) (hlo : cfg.endAddr ≤ pa) (hhi : pa < cfg.PHYSTOP)
    (hc : s.memrefs (pa / PGSIZE) ≤ 0) (hf : s.freelist = pa :: rest) :
    ∃ s', kfree cfg pa s = some s'
      ∧ s'.memrefs (pa / PGSIZE) = s.memrefs (pa / PGSIZE) - 1
      ∧ s'.memrefs (pa / PGSIZE) < 0
      ∧ (∀ off, s'.content (pa / PGSIZE) off = 1)
      ∧ s'.freelist = pa :: pa :: rest
      ∧ (∃ s2 s3, kalloc s' = (some pa, s2) ∧ kalloc s2 = (some pa, s3)) := by
  have hbad : ¬(pa % PGSIZE ≠ 0 ∨ pa < cfg.endAddr ∨ cfg.PHYSTOP ≤ pa) := by
    push_neg
    exact ⟨ha, hlo, by omega⟩
  have hneg : ¬(0 < s.memrefs (pa / PGSIZE) - 1) := by omega
  refine ⟨{ memrefs := fun j =>
              if j = pa / PGSIZE then s.memrefs (pa / PGSIZE) - 1 else s.memrefs j,
            freelist := pa :: s.freelist,
            content := fun j =>
              if j = pa / PGSIZE then (fun _ => 1) else s.content j },
    by simp [kfree, hbad, hneg], by simp, by simp; omega, fun off => by simp,
    by rw [hf], ?_⟩
  rw [hf]
  exact ⟨_, _, rfl, rfl⟩

/-- C10 witness at a concrete state: frame 8192 sits on the free list with
counter 0; freeing it again drives the counter to -1 and duplicates it on
the free list, and both following allocations hand out 8192. -/
theorem kfree_below_sentinel_double_w :
    8192 % PGSIZE = 0 ∧ cfgA.endAddr ≤ 8192 ∧ 8192 < cfgA.PHYSTOP
    ∧ sW10.memrefs (8192 / PGSIZE) ≤ 0 ∧ sW10.freelist = 8192 :: []
    ∧ (kfree cfgA 8192 sW10).map (fun t => t.freelist) = some [8192, 8192]
    ∧ (kfree cfgA 8192 sW10).map (fun t => t.memrefs 2) = some (-1)
    ∧ (kfree cfgA 8192 sW10).map (fun t => (kalloc t).1) = some (some 8192)
    ∧ (kfree cfgA 8192 sW10).map (fun t => (kalloc (kalloc t).2).1) = some (some 8192) := by
  obtain ⟨s', he, hm, hneg, hcontent, hfl, s2, s3, ha1, ha2⟩ :=
    kfree_below_sentinel_double cfgA 8192 sW10 [] (by decide) (by decide)
      (by decide) (by decide) rfl
  refine ⟨by decide, by decide, by decide, by decide, rfl, ?_, ?_, ?_, ?_⟩ <;> rw [he] <;> simp
  · exact hfl
  · rw [show (8192 : Nat) / PGSIZE = 2 from rfl] at hm
    rw [hm]; rfl
  · rw [ha1]
  · rw [ha1]; rw [ha2]

/-- C9: `iscow` returns true exactly when the address does not exceed the
maximum virtual address and the lookup finds a Valid entry whose COW flag
is set; in particular it is false beyond `MAXVA`, on a missing entry, on
an invalid entry, and on a valid entry with COW clear. -/
theorem iscow_spec (cfg : Config) (pt : Pagetable) (va : Nat) :
    iscow cfg pt va = true ↔
      (va ≤ cfg.MAXVA
        ∧ ∃ pte, walk pt va = some pte ∧ pte.valid = true ∧ pte.cow = true) := by
  unfold iscow
  by_cases hva : cfg.MAXVA < va
  · simp [hva]
  · have hle : va ≤ cfg.MAXVA := le_of_not_lt hva
    simp only [if_neg hva]
    cases hwk : walk pt va with
    | none => simp [hle]
    | some pte =>
      by_cases hv : pte.valid = false
      · simp [hv, hle]
      · simp [hv, hle, eq_true_of_ne_false hv]

/-- C3: when the faulting frame's counter is exactly 1, `cowcopy` grants
Writable and clears COW on the existing entry in place, leaves every other
entry alone, performs no allocation, no copy and no counter change (the
whole allocator state comes back unchanged), and returns the original
frame's address. -/
theorem cowcopy_sole_owner (cfg : Config) (mapOk : Bool) (pt : Pagetable)
    (va0 : Nat) (s : KState) (pte : PTE)
    (hw : walk pt (PGROUNDDOWN va0) = some pte)
    (h1 : s.memrefs (pte.pa / PGSIZE) = 1) :
    cowcopy cfg mapOk pt va0 s =
      some (pte.pa,
        fun a => if a = PGROUNDDOWN va0 then
          some { pte with writable := true, cow := false } else pt a,
        s) := by
  simp [cowcopy, hw, h1]

/-- C3 witness at a concrete instance: `pteA` (Valid, COW, read-only) for
virtual page 4096 with a sole-owner counter. -/
theorem cowcopy_sole_owner_w :
    walk ptA (PGROUNDDOWN 4096) = some pteA
    ∧ sB.memrefs (pteA.pa / PGSIZE) = 1
    ∧ cowcopy cfgA true ptA 4096 sB =
        some (pteA.pa,
          fun a => if a = PGROUNDDOWN 4096 then
            some { pteA with writable := true, cow := false } else ptA a,
          sB) :=
  ⟨rfl, by decide, cowcopy_sole_owner cfgA true ptA 4096 sB pteA rfl (by decide)⟩

/-- C2 counterexample: `ptX` carries a present but NOT Valid entry for
virtual page 0, and `cowcopy` neither aborts nor returns an error: it
proceeds through the sole-owner branch, grants Writable on the invalid
entry, and returns the stale frame address 8192 as an ordinary result. -/
theorem cowcopy_invalid_mapping_cex :
    walk ptX 0 = some pteX ∧ pteX.valid = false
    ∧ (cowcopy cfgA true ptX 0 sB).map
        (fun x => (x.1, x.2.1 0, x.2.2.freelist, x.2.2.memrefs 2))
      = some (8192,
          some { valid := false, writable := true, cow := false, other := 0, pa := 8192 },
          ([] : List Nat), (1 : Int)) := by
  exact ⟨rfl, rfl, by decide⟩

/-- C2 amended: `cowcopy` performs no check that the looked-up entry is
present and valid.  When the lookup finds a present but invalid entry
whose frame counter is 1 it proceeds exactly as for a valid one, granting
Writable in place and returning the stale entry's frame address as an
ordinary result rather than aborting.  (When the lookup finds no entry at
all, the C code dereferences the null `walk` result, a crash modelled as
the fatal outcome rather than a deliberate abort.) -/
theorem cowcopy_invalid_mapping_proceeds (cfg : Config) (mapOk : Bool)
    (pt : Pagetable) (va0 : Nat) (s : KState) (pte : PTE)
    (hw : walk pt (PGROUNDDOWN va0) = some pte)
    (_hv : pte.valid = false)
    (h1 : s.memrefs (pte.pa / PGSIZE) = 1) :
    cowcopy cfg mapOk pt va0 s =
      some (pte.pa,
        fun a => if a = PGROUNDDOWN va0 then
          some { pte with writable := true, cow := false } else pt a,
        s) := by
  simp [cowcopy, hw, h1]

/-- C2 amended witness: the concrete invalid entry `pteX`. -/
theorem cowcopy_invalid_mapping_proceeds_w :
    walk ptX (PGROUNDDOWN 0) = some pteX
    ∧ pteX.valid = false
    ∧ sB.memrefs (pteX.pa / PGSIZE) = 1
    ∧ cowcopy cfgA true ptX 0 sB =
        some (pteX.pa,
          fun a => if a = PGROUNDDOWN 0 then
            some { pteX with writable := true, cow := false } else ptX a,
          sB) :=
  ⟨rfl, rfl, by decide,
    cowcopy_invalid_mapping_proceeds cfgA true ptX 0 sB pteX rfl rfl (by decide)⟩

/-- C5: with the free list empty, `kalloc` reports out-of-memory (`none`)
and hands back the state entirely unchanged (no counter, list or content
modified), and `cowcopy` on a frame whose counter is above 1 under the
same condition returns the failure value 0 leaving the page table and the
whole allocator state untouched. -/
theorem alloc_exhaustion (cfg : Config) (mapOk : Bool) (pt : Pagetable)
    (va0 : Nat) (s : KState) (pte : PTE)
    (hempty : s.freelist = [])
    (hw : walk pt (PGROUNDDOWN va0) = some pte)
    (hgt : 1 < s.memrefs (pte.pa / PGSIZE)) :
    kalloc s = (none, s) ∧ cowcopy cfg mapOk pt va0 s = some (0, pt, s) := by
  have hne : ¬(s.memrefs (pte.pa / PGSIZE) = 1) := by omega
  constructor
  · simp [kalloc, hempty]
  · simp [cowcopy, hw, hne, kalloc, hempty]

/-- C5 witness at a concrete instance: empty free list, frame 8192 shared
with counter 2. -/
theorem alloc_exhaustion_w :
    sC.freelist = []
    ∧ walk ptA (PGROUNDDOWN 4096) = some pteA
    ∧ 1 < sC.memrefs (pteA.pa / PGSIZE)
    ∧ kalloc sC = (none, sC) ∧ cowcopy cfgA true ptA 4096 sC = some (0, ptA, sC) :=
  ⟨rfl, rfl, by decide, alloc_exhaustion cfgA true ptA 4096 sC pteA rfl rfl (by decide)⟩

/-- Rounding down to a page boundary yields an aligned address. -/
theorem PGROUNDDOWN_mod (a : Nat) : PGROUNDDOWN a % PGSIZE = 0 := by
  unfold PGROUNDDOWN
  exact Nat.mul_mod_left _ _

/-- Rounding down to a page boundary preserves the frame index. -/
theorem PGROUNDDOWN_div (a : Nat) : PGROUNDDOWN a / PGSIZE = a / PGSIZE := by
  unfold PGROUNDDOWN PGSIZE
  omega

/-- C4: when the faulting frame f's counter exceeds 1, the free list is
non-empty (head g, a frame distinct from f and inside the managed range
check done by the final release), and the installation succeeds, `cowcopy`
copies the full frame-sized content of f into g, remaps the faulting page
to g with Valid and Writable set, COW cleared and the other flags
preserved (all other pages untouched), sets g's counter to 1, decrements
f's counter by exactly one (f's content and every other frame stay
untouched), pops g off the free list, and returns g's address. -/
theorem cowcopy_shared_success (cfg : Config) (pt : Pagetable) (va0 : Nat)
    (s : KState) (pte : PTE) (g : Nat) (rest : List Nat)
    (hw : walk pt (PGROUNDDOWN va0) = some pte)
    (hgt : 1 < s.memrefs (pte.pa / PGSIZE))
    (hfl : s.freelist = g :: rest)
    (hgf : g / PGSIZE ≠ pte.pa / PGSIZE)
    (hlo : cfg.endAddr ≤ PGROUNDDOWN pte.pa)
    (hhi : PGROUNDDOWN pte.pa < cfg.PHYSTOP) :
    ∃ pt' s', cowcopy cfg true pt va0 s = some (g, pt', s')
      ∧ pt' (PGROUNDDOWN va0) =
          some { valid := true, writable := true, cow := false, other := pte.other, pa := g }
      ∧ (∀ a, a ≠ PGROUNDDOWN va0 → pt' a = pt a)
      ∧ s'.memrefs (pte.pa / PGSIZE) = s.memrefs (pte.pa / PGSIZE) - 1
      ∧ 0 < s'.memrefs (pte.pa / PGSIZE)
      ∧ s'.memrefs (g / PGSIZE) = 1
      ∧ (∀ off, s'.content (g / PGSIZE) off = s.content (pte.pa / PGSIZE) off)
      ∧ (∀ off, s'.content (pte.pa / PGSIZE) off = s.content (pte.pa / PGSIZE) off)
      ∧ (∀ j, j ≠ pte.pa / PGSIZE → j ≠ g / PGSIZE →
          s'.memrefs j = s.memrefs j ∧ s'.content j = s.content j)
      ∧ s'.freelist = rest := by
  have hne : ¬(s.memrefs (pte.pa / PGSIZE) = 1) := by omega
  have hik : ¬(pte.pa / PGSIZE = g / PGSIZE) := fun h => hgf h.symm
  have hmod : PGROUNDDOWN pte.pa % PGSIZE = 0 := PGROUNDDOWN_mod _
  have hdiv : PGROUNDDOWN pte.pa / PGSIZE = pte.pa / PGSIZE := PGROUNDDOWN_div _
  have hlo' : ¬(PGROUNDDOWN pte.pa < cfg.endAddr) := not_lt.mpr hlo
  have hhi' : ¬(cfg.PHYSTOP ≤ PGROUNDDOWN pte.pa) := not_le.mpr hhi
  have hpos : 0 < s.memrefs (pte.pa / PGSIZE) - 1 := by omega
  have hk : kalloc s = (some g,
      { memrefs := fun j => if j = g / PGSIZE then 1 else s.memrefs j,
        freelist := rest,
        content := fun j => if j = g / PGSIZE then (fun _ => 5) else s.content j }) := by
    simp [kalloc, hfl]
  refine ⟨(fun a =>
      if a = PGROUNDDOWN va0 then
        some { valid := true, writable := true, cow := false, other := pte.other, pa := g }
      else
        if a = PGROUNDDOWN va0 then
          some { valid := false, writable := pte.writable, cow := pte.cow,
                 other := pte.other, pa := pte.pa }
        else pt a),
    { memrefs := fun j =>
        if j = pte.pa / PGSIZE then s.memrefs (pte.pa / PGSIZE) - 1
        else if j = g / PGSIZE then 1 else s.memrefs j,
      freelist := rest,
      content := fun j =>
        if j = g / PGSIZE then s.content (pte.pa / PGSIZE)
        else if j = g / PGSIZE then (fun _ => 5) else s.content j },
    ?_, ?_, ?_, ?_, ?_, ?_, ?_, ?_, ?_, ?_⟩
  · simp only [cowcopy, hw, hne, ite_false, hk, mappages, ite_true, kfree, hmod, hdiv,
      hlo', hhi', hik, hpos, if_true, if_false]
    simp
  · simp
  · intro a ha
    simp [ha]
  · simp
  · simp
    omega
  · simp [hgf]
  · intro off
    simp
  · intro off
    simp [hik]
  · intro j hji hjg
    exact ⟨by simp [hji, hjg], by simp [hji, hjg]⟩
  · rfl

/-- C4 witness at a concrete instance (spec §8 Scenario B): frame 8192
(counter 2) is duplicated into the free frame 12288; the faulting page
4096 is remapped to 12288 Valid+Writable, COW clear, the opaque flags (2)
preserved; 12288 gets counter 1 with 8192's content (byte 7, not the junk
5); 8192 keeps its content and drops to counter 1; the free list is left
empty. -/
theorem cowcopy_shared_success_w :
    walk ptA (PGROUNDDOWN 4096) = some pteA
    ∧ 1 < sA.memrefs (pteA.pa / PGSIZE)
    ∧ sA.freelist = 12288 :: []
    ∧ 12288 / PGSIZE ≠ pteA.pa / PGSIZE
    ∧ cfgA.endAddr ≤ PGROUNDDOWN pteA.pa
    ∧ PGROUNDDOWN pteA.pa < cfgA.PHYSTOP
    ∧ (cowcopy cfgA true ptA 4096 sA).map
        (fun x => (x.1, x.2.1 4096, x.2.2.memrefs 2, x.2.2.memrefs 3,
          x.2.2.content 3 0, x.2.2.content 2 0, x.2.2.freelist))
      = some (12288,
          some { valid := true, writable := true, cow := false, other := 2, pa := 12288 },
          (1 : Int), (1 : Int), 7, 7, ([] : List Nat)) := by
  obtain ⟨pt', s', heq, hva, _, hm1, _, hmg, hcg, hci, _, hfl⟩ :=
    cowcopy_shared_success cfgA ptA 4096 sA pteA 12288 [] rfl (by decide) rfl
      (by decide) (by decide) (by decide)
  refine ⟨rfl, by decide, rfl, by decide, by decide, by decide, ?_⟩
  rw [heq]
  simp only [Option.map_some']
  rw [show pt' 4096 = pt' (PGROUNDDOWN 4096) from rfl, hva]
  rw [show s'.memrefs 2 = s'.memrefs (pteA.pa / PGSIZE) from rfl, hm1]
  rw [show s'.memrefs 3 = s'.memrefs (12288 / PGSIZE) from rfl, hmg]
  rw [show s'.content 3 0 = s'.content (12288 / PGSIZE) 0 from rfl, hcg 0]
  rw [show s'.content 2 0 = s'.content (pteA.pa / PGSIZE) 0 from rfl, hci 0]
  rw [hfl]
  rfl

/-- C1 (failing input): with frame 8192 shared (counter 2), free frame
12288 available, and the external installation failing, `cowcopy` does
release the newly allocated frame (12288 returns to the free list with
counter 0 and the free junk content) and does report failure (0) — but it
does NOT restore the original mapping: the entry for page 4096 is left
with Valid cleared (still read-only, still COW-tagged) and frame 8192's
counter stays 2 with no reference released, exactly the state the claim
forbids. -/
theorem cowcopy_install_fail_state :
    (cowcopy cfgA false ptA 4096 sA).map
        (fun x => (x.1, x.2.1 4096, x.2.2.memrefs 2, x.2.2.memrefs 3,
          x.2.2.content 3 0, x.2.2.freelist))
      = some (0,
          some { valid := false, writable := false, cow := true, other := 2, pa := 8192 },
          (2 : Int), (0 : Int), 1, [12288]) := by
  rfl

/-- C9 witness at a concrete instance: `pteA` is Valid with COW set, so
`iscow` answers true for its page. -/
theorem iscow_spec_w : iscow cfgA ptA 4096 = true :=
  (iscow_spec cfgA ptA 4096).mpr ⟨by decide, pteA, rfl, rfl, rfl⟩
